import Mathlib

/-!
Verification development for the responsive-components TypeScript module.
The definitions below are a shallow embedding of the classes in the
source file (BreakpointManager, ResponsiveNav, UIUpdater): pure methods
become Lean functions, the mutable objects become explicit state records,
and callback invocation becomes an explicit event list so that ordering
can be stated.  Viewport widths and heights are natural numbers; callback
functions are represented by opaque identifiers so that which callback
runs, and in which order, is observable.
-/

namespace ResponsiveDemo

/-- Breakpoint table of BreakpointManager, in insertion order
(name, minWidth), exactly as the object literal in the constructor. -/
def breakpoints : List (String × Nat) :=
  [("xs", 0), ("sm", 576), ("md", 768), ("lg", 1024), ("xl", 1280), ("xxl", 1536)]

/-- Keys of the breakpoint table in insertion order, as produced by
Object.keys in isUp and isDown. -/
def breakpointNames : List String := breakpoints.map Prod.fst

/-- BreakpointManager.getCurrentBreakpoint: starts from the name xs and
iterates the table entries in order, overwriting the running result
whenever width is at least the entry threshold. -/
def getCurrentBreakpoint (width : Nat) : String :=
  breakpoints.foldl (fun current p => if width ≥ p.2 then p.1 else current) "xs"

/-- JavaScript Array.indexOf semantics on a list of strings: index of the
first occurrence, or -1 when the element is absent. -/
def jsIndexOf : List String → String → Int
  | [], _ => -1
  | x :: xs, s =>
      if x = s then 0
      else if jsIndexOf xs s = -1 then -1 else jsIndexOf xs s + 1

/-- Closed form of getCurrentBreakpoint as threshold bands. -/
theorem getCurrentBreakpoint_eq_bands (w : Nat) :
    getCurrentBreakpoint w =
      (if w < 576 then "xs" else if w < 768 then "sm" else if w < 1024 then "md"
       else if w < 1280 then "lg" else if w < 1536 then "xl" else "xxl") := by
  simp only [getCurrentBreakpoint, breakpoints, List.foldl_cons, List.foldl_nil]
  split_ifs <;> first | rfl | omega

/-- Every second component of the breakpoint table is one of the six
fixed thresholds. -/
theorem snd_mem_breakpoints (p : String × Nat) (hp : p ∈ breakpoints) :
    p.2 = 0 ∨ p.2 = 576 ∨ p.2 = 768 ∨ p.2 = 1024 ∨ p.2 = 1280 ∨ p.2 = 1536 := by
  simp only [breakpoints, List.mem_cons, List.not_mem_nil, or_false] at hp
  rcases hp with h | h | h | h | h | h <;> rw [h]
  all_goals simp

/-- C1: for every viewport width w the fixed table yields xs on [0,575],
sm on [576,767], md on [768,1023], lg on [1024,1279], xl on [1280,1535]
and xxl from 1536 on; the result is always a table name (never null) and
it is the widest breakpoint whose threshold is at most w. -/
theorem c1_getCurrentBreakpoint_correct (w : Nat) :
    getCurrentBreakpoint w =
      (if w < 576 then "xs" else if w < 768 then "sm" else if w < 1024 then "md"
       else if w < 1280 then "lg" else if w < 1536 then "xl" else "xxl") ∧
    getCurrentBreakpoint w ∈ breakpointNames ∧
    ∃ t, (getCurrentBreakpoint w, t) ∈ breakpoints ∧ t ≤ w ∧
      ∀ p ∈ breakpoints, p.2 ≤ w → p.2 ≤ t := by
  refine ⟨getCurrentBreakpoint_eq_bands w, ?_, ?_⟩
  · rw [getCurrentBreakpoint_eq_bands]
    split_ifs <;> decide
  · rw [getCurrentBreakpoint_eq_bands]
    split_ifs with h1 h2 h3 h4 h5
    · exact ⟨0, by decide, Nat.zero_le w, fun p hp hpw => by
        rcases snd_mem_breakpoints p hp with h | h | h | h | h | h <;> omega⟩
    · exact ⟨576, by decide, by omega, fun p hp hpw => by
        rcases snd_mem_breakpoints p hp with h | h | h | h | h | h <;> omega⟩
    · exact ⟨768, by decide, by omega, fun p hp hpw => by
        rcases snd_mem_breakpoints p hp with h | h | h | h | h | h <;> omega⟩
    · exact ⟨1024, by decide, by omega, fun p hp hpw => by
        rcases snd_mem_breakpoints p hp with h | h | h | h | h | h <;> omega⟩
    · exact ⟨1280, by decide, by omega, fun p hp hpw => by
        rcases snd_mem_breakpoints p hp with h | h | h | h | h | h <;> omega⟩
    · exact ⟨1536, by decide, by omega, fun p hp hpw => by
        rcases snd_mem_breakpoints p hp with h | h | h | h | h | h <;> omega⟩

/-- Witness for C1: concrete evaluation at width 800. -/
theorem c1_witness :
    getCurrentBreakpoint 800 =
      (if (800 : Nat) < 576 then "xs" else if (800 : Nat) < 768 then "sm"
       else if (800 : Nat) < 1024 then "md" else if (800 : Nat) < 1280 then "lg"
       else if (800 : Nat) < 1536 then "xl" else "xxl") ∧
    getCurrentBreakpoint 800 ∈ breakpointNames ∧
    ∃ t, (getCurrentBreakpoint 800, t) ∈ breakpoints ∧ t ≤ 800 ∧
      ∀ p ∈ breakpoints, p.2 ≤ 800 → p.2 ≤ t :=
  c1_getCurrentBreakpoint_correct 800

/-- Viewport change record, mirroring the ViewportChangeDetail interface. -/
structure ChangeDetail where
  oldBreakpoint : String
  newBreakpoint : String
  width : Nat
  height : Nat
deriving DecidableEq

/-- Mutable state of a BreakpointManager instance.  Callback functions
are modelled by identifiers of type α; the enter and exit registries are
association lists mirroring the Record objects keyed by breakpoint name. -/
structure BMState (α : Type) where
  currentBreakpoint : String
  previousBreakpoint : Option String
  changeCbs : List α
  enterCbs : List (String × List α)
  exitCbs : List (String × List α)
deriving DecidableEq

/-- Callback invocation event: which callback ran, and for change
callbacks with which record. -/
inductive CbEvent (α : Type) where
  | change (cb : α) (d : ChangeDetail)
  | exitCb (cb : α)
  | enterCb (cb : α)
deriving DecidableEq

/-- JavaScript property read on a Record keyed by breakpoint name:
some value when the key is present, none (undefined) otherwise. -/
def recordGet {α : Type} (r : List (String × List α)) (k : String) : Option (List α) :=
  (r.find? (fun p => p.1 == k)).map Prod.snd

/-- Record read defaulted to the empty callback list. -/
def recordGetD {α : Type} (r : List (String × List α)) (k : String) : List α :=
  match recordGet r k with
  | some cbs => cbs
  | none => []

/-- BreakpointManager.onChange: push the callback onto the change list. -/
def onChange {α : Type} (s : BMState α) (cb : α) : BMState α :=
  { s with changeCbs := s.changeCbs ++ [cb] }

/-- JavaScript push into a Record of callback lists, creating the empty
list first when the key is absent. -/
def recordPush {α : Type} (r : List (String × List α)) (k : String) (cb : α) :
    List (String × List α) :=
  match recordGet r k with
  | none => r ++ [(k, [cb])]
  | some _ => r.map (fun p => if p.1 == k then (p.1, p.2 ++ [cb]) else p)

/-- BreakpointManager.onEnter. -/
def onEnter {α : Type} (s : BMState α) (breakpoint : String) (cb : α) : BMState α :=
  { s with enterCbs := recordPush s.enterCbs breakpoint cb }

/-- BreakpointManager.onExit. -/
def onExit {α : Type} (s : BMState α) (breakpoint : String) (cb : α) : BMState α :=
  { s with exitCbs := recordPush s.exitCbs breakpoint cb }

/-- BreakpointManager.checkBreakpointChange, run after the debounced
viewport-size notification with the current viewport width and height.
Returns the new state, the change record dispatched in this turn (none
when the breakpoint did not change), and the callback invocations in the
exact order the source performs them: all change callbacks, then the exit
callbacks registered for the old breakpoint (guarded by the truthiness of
previousBreakpoint, which in JavaScript is false for the empty string),
then the enter callbacks registered for the new breakpoint.  The state
fields are updated before the events are computed, as in the source. -/
def checkBreakpointChange {α : Type} (s : BMState α) (width height : Nat) :
    BMState α × Option ChangeDetail × List (CbEvent α) :=
  let newBreakpoint := getCurrentBreakpoint width
  if newBreakpoint ≠ s.currentBreakpoint then
    let prev := s.currentBreakpoint
    let s2 : BMState α :=
      { s with previousBreakpoint := some prev, currentBreakpoint := newBreakpoint }
    let detail : ChangeDetail :=
      { oldBreakpoint := prev, newBreakpoint := newBreakpoint,
        width := width, height := height }
    let changeEvents := s2.changeCbs.map (fun cb => CbEvent.change cb detail)
    let exitEvents :=
      if prev ≠ "" then
        match recordGet s2.exitCbs prev with
        | some cbs => cbs.map CbEvent.exitCb
        | none => []
      else []
    let enterEvents :=
      match recordGet s2.enterCbs newBreakpoint with
      | some cbs => cbs.map CbEvent.enterCb
      | none => []
    (s2, some detail, changeEvents ++ exitEvents ++ enterEvents)
  else (s, none, [])

/-- BreakpointManager.isUp: compare indexOf ranks of current and target. -/
def isUp {α : Type} (s : BMState α) (breakpoint : String) : Bool :=
  decide (jsIndexOf breakpointNames s.currentBreakpoint ≥
    jsIndexOf breakpointNames breakpoint)

/-- BreakpointManager.isDown: compare indexOf ranks of current and target. -/
def isDown {α : Type} (s : BMState α) (breakpoint : String) : Bool :=
  decide (jsIndexOf breakpointNames s.currentBreakpoint ≤
    jsIndexOf breakpointNames breakpoint)

/-- BreakpointManager.destroy: disconnect the observer and reset all three
callback registries to empty. -/
def destroy {α : Type} (s : BMState α) : BMState α :=
  { s with changeCbs := [], enterCbs := [], exitCbs := [] }

/-- C2: getCurrentBreakpoint always yields a table name, and its rank in
the table (JavaScript indexOf position) is monotonically non-decreasing
in the width. -/
theorem c2_getCurrentBreakpoint_monotone (w1 w2 : Nat) (h : w1 ≤ w2) :
    getCurrentBreakpoint w1 ∈ breakpointNames ∧
    getCurrentBreakpoint w2 ∈ breakpointNames ∧
    jsIndexOf breakpointNames (getCurrentBreakpoint w1) ≤
      jsIndexOf breakpointNames (getCurrentBreakpoint w2) := by
  rw [getCurrentBreakpoint_eq_bands w1, getCurrentBreakpoint_eq_bands w2]
  refine ⟨?_, ?_, ?_⟩ <;> split_ifs <;> first | decide | omega

/-- Witness for C2: widths 100 and 700 with the hypothesis discharged. -/
theorem c2_witness :
    (100 : Nat) ≤ 700 ∧
    (getCurrentBreakpoint 100 ∈ breakpointNames ∧
     getCurrentBreakpoint 700 ∈ breakpointNames ∧
     jsIndexOf breakpointNames (getCurrentBreakpoint 100) ≤
       jsIndexOf breakpointNames (getCurrentBreakpoint 700)) :=
  ⟨by omega, c2_getCurrentBreakpoint_monotone 100 700 (by omega)⟩

/-- JavaScript indexOf returns -1 exactly on absent elements. -/
theorem jsIndexOf_eq_neg_one (l : List String) (s : String) : s ∉ l → jsIndexOf l s = -1 := by
  induction l with
  | nil => intro h; rfl
  | cons x xs ih =>
      intro h
      rw [List.mem_cons, not_or] at h
      rw [jsIndexOf, if_neg (fun hx => h.1 hx.symm), ih h.2]
      simp

/-- JavaScript indexOf is non-negative on present elements. -/
theorem jsIndexOf_nonneg (l : List String) (s : String) : s ∈ l → 0 ≤ jsIndexOf l s := by
  induction l with
  | nil => intro h; cases h
  | cons x xs ih =>
      intro h
      rw [jsIndexOf]
      by_cases hx : x = s
      · simp [hx]
      · have hs : s ∈ xs := by
          rcases List.mem_cons.mp h with h1 | h1
          · exact absurd h1.symm hx
          · exact h1
        have h0 := ih hs
        rw [if_neg hx]
        split_ifs with h2 <;> omega

/-- Sample manager state used by the concrete witnesses: current
breakpoint md, two change callbacks, one enter callback for lg and one
exit callback for md. -/
def sampleState : BMState Nat :=
  { currentBreakpoint := "md", previousBreakpoint := none,
    changeCbs := [1, 2], enterCbs := [("lg", [3])], exitCbs := [("md", [4])] }

/-- C3: a notification whose recomputed breakpoint equals the stored one
leaves the state untouched and produces no record and no callback
invocation; a notification that crossed exactly one threshold (rank
distance one) produces exactly one change record whose old breakpoint is
the one held before and whose new breakpoint is the recomputed one. -/
theorem c3_change_detection (s : BMState Nat) (w h : Nat) :
    (getCurrentBreakpoint w = s.currentBreakpoint →
      checkBreakpointChange s w h = (s, none, [])) ∧
    ((jsIndexOf breakpointNames (getCurrentBreakpoint w) -
        jsIndexOf breakpointNames s.currentBreakpoint).natAbs = 1 →
      (checkBreakpointChange s w h).2.1 =
          some { oldBreakpoint := s.currentBreakpoint,
                 newBreakpoint := getCurrentBreakpoint w, width := w, height := h } ∧
        (checkBreakpointChange s w h).1.currentBreakpoint = getCurrentBreakpoint w ∧
        (checkBreakpointChange s w h).1.previousBreakpoint = some s.currentBreakpoint) := by
  constructor
  · intro heq
    simp [checkBreakpointChange, heq]
  · intro hcross
    have hne : getCurrentBreakpoint w ≠ s.currentBreakpoint := by
      intro heq
      rw [heq] at hcross
      simp at hcross
    simp [checkBreakpointChange, hne]

/-- Witness for C3 at the sample state: width 800 stays inside md, width
1100 crosses to lg. -/
theorem c3_witness :
    checkBreakpointChange sampleState 800 600 = (sampleState, none, []) ∧
    (checkBreakpointChange sampleState 1100 600).2.1 =
        some { oldBreakpoint := sampleState.currentBreakpoint,
               newBreakpoint := getCurrentBreakpoint 1100, width := 1100, height := 600 } ∧
      (checkBreakpointChange sampleState 1100 600).1.currentBreakpoint =
        getCurrentBreakpoint 1100 ∧
      (checkBreakpointChange sampleState 1100 600).1.previousBreakpoint =
        some sampleState.currentBreakpoint :=
  ⟨(c3_change_detection sampleState 800 600).1 (by decide),
   (c3_change_detection sampleState 1100 600).2 (by decide)⟩

/-- C4: on a transition the state fields are updated first, one change
record is built from them, and the callback invocations are exactly the
change callbacks in registration order, then the exit callbacks
registered for the previous breakpoint, then the enter callbacks
registered for the new breakpoint. -/
theorem c4_callback_order (s : BMState Nat) (w h : Nat)
    (hne : getCurrentBreakpoint w ≠ s.currentBreakpoint)
    (hcur : s.currentBreakpoint ≠ "") :
    (checkBreakpointChange s w h).1 =
      { s with currentBreakpoint := getCurrentBreakpoint w,
               previousBreakpoint := some s.currentBreakpoint } ∧
    (checkBreakpointChange s w h).2.1 =
      some { oldBreakpoint := s.currentBreakpoint,
             newBreakpoint := getCurrentBreakpoint w, width := w, height := h } ∧
    (checkBreakpointChange s w h).2.2 =
      s.changeCbs.map
          (fun cb => CbEvent.change cb
            { oldBreakpoint := s.currentBreakpoint,
              newBreakpoint := getCurrentBreakpoint w, width := w, height := h })
        ++ (recordGetD s.exitCbs s.currentBreakpoint).map CbEvent.exitCb
        ++ (recordGetD s.enterCbs (getCurrentBreakpoint w)).map CbEvent.enterCb := by
  refine ⟨by simp [checkBreakpointChange, hne], by simp [checkBreakpointChange, hne], ?_⟩
  simp [checkBreakpointChange, hne, hcur, recordGetD]
  cases h1 : recordGet s.exitCbs s.currentBreakpoint <;>
    cases h2 : recordGet s.enterCbs (getCurrentBreakpoint w) <;>
    simp [h1, h2]

/-- Witness for C4 at the sample state with width 1100. -/
theorem c4_witness :
    (checkBreakpointChange sampleState 1100 600).1 =
      { sampleState with currentBreakpoint := getCurrentBreakpoint 1100,
                         previousBreakpoint := some sampleState.currentBreakpoint } ∧
    (checkBreakpointChange sampleState 1100 600).2.1 =
      some { oldBreakpoint := sampleState.currentBreakpoint,
             newBreakpoint := getCurrentBreakpoint 1100, width := 1100, height := 600 } ∧
    (checkBreakpointChange sampleState 1100 600).2.2 =
      sampleState.changeCbs.map
          (fun cb => CbEvent.change cb
            { oldBreakpoint := sampleState.currentBreakpoint,
              newBreakpoint := getCurrentBreakpoint 1100, width := 1100, height := 600 })
        ++ (recordGetD sampleState.exitCbs sampleState.currentBreakpoint).map CbEvent.exitCb
        ++ (recordGetD sampleState.enterCbs (getCurrentBreakpoint 1100)).map CbEvent.enterCb :=
  c4_callback_order sampleState 1100 600 (by decide) (by decide)

/-- C5: for a current breakpoint and a target name both in the table,
isUp holds exactly when the current rank is at least the target rank,
isDown exactly when it is at most, and both hold exactly on equality. -/
theorem c5_isUp_isDown_rank (s : BMState Nat) (t : String)
    (hc : s.currentBreakpoint ∈ breakpointNames) (ht : t ∈ breakpointNames) :
    (isUp s t = true ↔
      jsIndexOf breakpointNames t ≤ jsIndexOf breakpointNames s.currentBreakpoint) ∧
    (isDown s t = true ↔
      jsIndexOf breakpointNames s.currentBreakpoint ≤ jsIndexOf breakpointNames t) ∧
    ((isUp s t = true ∧ isDown s t = true) ↔ s.currentBreakpoint = t) := by
  refine ⟨by simp [isUp, ge_iff_le], by simp [isDown], ?_⟩
  obtain ⟨c, hcs⟩ : ∃ c, s.currentBreakpoint = c := ⟨_, rfl⟩
  rw [hcs] at hc
  simp only [isUp, isDown, hcs]
  simp only [breakpointNames, breakpoints, List.map_cons, List.map_nil, List.mem_cons,
    List.not_mem_nil, or_false] at hc ht
  rcases hc with rfl | rfl | rfl | rfl | rfl | rfl <;>
    rcases ht with rfl | rfl | rfl | rfl | rfl | rfl <;> decide

/-- Witness for C5 at current breakpoint md and target sm. -/
theorem c5_witness :
    (isUp sampleState "sm" = true ↔
      jsIndexOf breakpointNames "sm" ≤
        jsIndexOf breakpointNames sampleState.currentBreakpoint) ∧
    (isDown sampleState "sm" = true ↔
      jsIndexOf breakpointNames sampleState.currentBreakpoint ≤
        jsIndexOf breakpointNames "sm") ∧
    ((isUp sampleState "sm" = true ∧ isDown sampleState "sm" = true) ↔
      sampleState.currentBreakpoint = "sm") :=
  c5_isUp_isDown_rank sampleState "sm" (by decide) (by decide)

/-- Manager state with current breakpoint xs and no callbacks, used for
the C6 concrete statements. -/
def c6State : BMState Nat :=
  { currentBreakpoint := "xs", previousBreakpoint := none,
    changeCbs := [], enterCbs := [], exitCbs := [] }

/-- C6 counterexample: for the unrecognized name foo and current
breakpoint xs, isUp returns true, not false as the claim states, because
every table rank is at least the not-found rank -1. -/
theorem c6_counterexample :
    "foo" ∉ breakpointNames ∧ isUp c6State "foo" = true := by decide

/-- C6 amended: for a name outside the table and a current breakpoint in
the table, isDown returns false but isUp returns true (the unrecognized
name is ranked -1, which every table rank weakly exceeds); no error is
thrown. -/
theorem c6_amended_unknown_name (s : BMState Nat) (n : String)
    (hn : n ∉ breakpointNames) (hc : s.currentBreakpoint ∈ breakpointNames) :
    isUp s n = true ∧ isDown s n = false := by
  have h1 : jsIndexOf breakpointNames n = -1 := jsIndexOf_eq_neg_one _ _ hn
  have h2 : 0 ≤ jsIndexOf breakpointNames s.currentBreakpoint :=
    jsIndexOf_nonneg _ _ hc
  constructor
  · simp only [isUp, h1, ge_iff_le, decide_eq_true_eq]
    omega
  · simp only [isDown, h1]
    simp only [decide_eq_false_iff_not]
    omega

/-- Witness for the amended C6 at the name foo and current breakpoint xs. -/
theorem c6_amended_witness :
    "foo" ∉ breakpointNames ∧ c6State.currentBreakpoint ∈ breakpointNames ∧
    (isUp c6State "foo" = true ∧ isDown c6State "foo" = false) :=
  ⟨by decide, by decide, c6_amended_unknown_name c6State "foo" (by decide) (by decide)⟩

/-- C7: destroy empties all three callback registries, and a
viewport-size notification arriving afterwards invokes no callback at
all; the registries also stay empty across that notification. -/
theorem c7_destroy_silences (s : BMState Nat) (w h : Nat) :
    (destroy s).changeCbs = [] ∧ (destroy s).enterCbs = [] ∧ (destroy s).exitCbs = [] ∧
    (checkBreakpointChange (destroy s) w h).2.2 = [] ∧
    (checkBreakpointChange (destroy s) w h).1.changeCbs = [] ∧
    (checkBreakpointChange (destroy s) w h).1.enterCbs = [] ∧
    (checkBreakpointChange (destroy s) w h).1.exitCbs = [] := by
  refine ⟨rfl, rfl, rfl, ?_, ?_, ?_, ?_⟩ <;>
    simp [checkBreakpointChange, destroy, recordGet] <;>
    split_ifs <;> simp

/-- C10: every change record the manager emits has distinct old and new
breakpoints, and the state visible to the callbacks agrees with the
record: stored current equals the record new breakpoint and stored
previous equals the record old breakpoint. -/
theorem c10_record_consistency (s : BMState Nat) (w h : Nat) (d : ChangeDetail)
    (hd : (checkBreakpointChange s w h).2.1 = some d) :
    d.oldBreakpoint ≠ d.newBreakpoint ∧
    (checkBreakpointChange s w h).1.currentBreakpoint = d.newBreakpoint ∧
    (checkBreakpointChange s w h).1.previousBreakpoint = some d.oldBreakpoint := by
  by_cases hne : getCurrentBreakpoint w = s.currentBreakpoint
  · simp [checkBreakpointChange, hne] at hd
  · simp [checkBreakpointChange, hne] at hd ⊢
    rw [← hd]
    exact ⟨fun hq => hne hq.symm, rfl, rfl⟩

/-- Witness for C10 at the sample state with width 1100. -/
theorem c10_witness :
    ({ oldBreakpoint := "md", newBreakpoint := "lg",
       width := 1100, height := 600 } : ChangeDetail).oldBreakpoint ≠
      ({ oldBreakpoint := "md", newBreakpoint := "lg",
         width := 1100, height := 600 } : ChangeDetail).newBreakpoint ∧
    (checkBreakpointChange sampleState 1100 600).1.currentBreakpoint =
      ({ oldBreakpoint := "md", newBreakpoint := "lg",
         width := 1100, height := 600 } : ChangeDetail).newBreakpoint ∧
    (checkBreakpointChange sampleState 1100 600).1.previousBreakpoint =
      some ({ oldBreakpoint := "md", newBreakpoint := "lg",
              width := 1100, height := 600 } : ChangeDetail).oldBreakpoint :=
  c10_record_consistency sampleState 1100 600
    { oldBreakpoint := "md", newBreakpoint := "lg", width := 1100, height := 600 }
    (by decide)

/-- Observable state of a ResponsiveNav instance after successful
initialization: the open flag and mobile flag, the two CSS state
classes, the accessibility expanded attribute on the toggle, and the
inline overflow style of the document body. -/
structure NavState where
  isOpen : Bool
  isMobile : Bool
  menuOpenClass : Bool
  toggleActiveClass : Bool
  ariaExpanded : String
  bodyOverflow : String
deriving DecidableEq

/-- ResponsiveNav.openMenu: add both state classes, set the expanded
attribute to true, mark open, and suspend body scroll only in mobile
mode. -/
def openMenu (s : NavState) : NavState :=
  let s2 : NavState :=
    { s with menuOpenClass := true, toggleActiveClass := true,
             ariaExpanded := "true", isOpen := true }
  if s2.isMobile then { s2 with bodyOverflow := "hidden" } else s2

/-- ResponsiveNav.closeMenu: remove both state classes, set the expanded
attribute to false, mark closed, and clear the body overflow style
unconditionally. -/
def closeMenu (s : NavState) : NavState :=
  { s with menuOpenClass := false, toggleActiveClass := false,
           ariaExpanded := "false", isOpen := false, bodyOverflow := "" }

/-- ResponsiveNav.toggleMenu. -/
def toggleMenu (s : NavState) : NavState :=
  if s.isOpen then closeMenu s else openMenu s

/-- ResponsiveNav.checkViewport on a debounced resize with a new
viewport width: recompute the mobile flag against the fixed threshold
768 and force-close when leaving mobile mode while open. -/
def checkViewport (s : NavState) (width : Nat) : NavState :=
  let wasMobile := s.isMobile
  let s2 : NavState := { s with isMobile := decide (width < 768) }
  if wasMobile ∧ ¬ s2.isMobile ∧ s2.isOpen then closeMenu s2 else s2

/-- C8: openMenu sets the expanded attribute to true and suspends scroll
exactly in mobile mode (otherwise the body overflow is untouched);
closeMenu always clears the scroll suspension and sets the expanded
attribute to false; and closing is idempotent, so closing an
already-closed menu repeats no side effect and leaves the state
identical. -/
theorem c8_nav_open_close (s : NavState) :
    (openMenu s).ariaExpanded = "true" ∧
    (openMenu s).isOpen = true ∧
    (s.isMobile = true → (openMenu s).bodyOverflow = "hidden") ∧
    (s.isMobile = false → (openMenu s).bodyOverflow = s.bodyOverflow) ∧
    (closeMenu s).ariaExpanded = "false" ∧
    (closeMenu s).bodyOverflow = "" ∧
    (closeMenu s).isOpen = false ∧
    closeMenu (closeMenu s) = closeMenu s := by
  cases hm : s.isMobile <;> simp [openMenu, closeMenu, hm]

/-- Sample navigation states for the C8 witness. -/
def navMobile : NavState :=
  { isOpen := false, isMobile := true, menuOpenClass := false,
    toggleActiveClass := false, ariaExpanded := "false", bodyOverflow := "" }

/-- Desktop-mode navigation state for the C8 witness. -/
def navDesktop : NavState :=
  { isOpen := false, isMobile := false, menuOpenClass := false,
    toggleActiveClass := false, ariaExpanded := "false", bodyOverflow := "" }

/-- Witness for C8: both hypotheses discharged at concrete states. -/
theorem c8_witness :
    (navMobile.isMobile = true ∧ (openMenu navMobile).bodyOverflow = "hidden") ∧
    (navDesktop.isMobile = false ∧
      (openMenu navDesktop).bodyOverflow = navDesktop.bodyOverflow) :=
  ⟨⟨rfl, (c8_nav_open_close navMobile).2.2.1 rfl⟩,
   ⟨rfl, (c8_nav_open_close navDesktop).2.2.2.1 rfl⟩⟩

/-- Format of a log entry of UIUpdater.addLogEntry, with the timestamp
string passed in (the source reads the local clock at write time). -/
def mkLogEntry (timestamp oldBreakpoint newBreakpoint : String) : String :=
  timestamp ++ " - Changed from " ++ oldBreakpoint.toUpper ++ " to " ++
    newBreakpoint.toUpper

/-- One iteration bound for the eviction loop of addLogEntry: the source
while-loop removes the last child as long as more than 10 children
remain; fuel bounds the iteration count and the initial list length is
always enough fuel, since each pass shortens the list by one. -/
def trimLoop : Nat → List String → List String
  | 0, l => l
  | fuel + 1, l => if l.length > 10 then trimLoop fuel l.dropLast else l

/-- Eviction loop of addLogEntry run to completion. -/
def trimLog (l : List String) : List String := trimLoop l.length l

/-- UIUpdater.addLogEntry: build the formatted entry, insert it before
the first child, then evict from the back while more than 10 entries
remain. -/
def addLogEntry (log : List String) (timestamp oldBreakpoint newBreakpoint : String) :
    List String :=
  trimLog (mkLogEntry timestamp oldBreakpoint newBreakpoint :: log)

/-- The eviction loop keeps exactly the first ten entries. -/
theorem trimLoop_eq_take (fuel : Nat) (l : List String) (hf : l.length ≤ fuel) :
    trimLoop fuel l = l.take 10 := by
  induction fuel generalizing l with
  | zero =>
      have : l = [] := List.eq_nil_of_length_eq_zero (Nat.le_zero.mp hf)
      rw [this]
      rfl
  | succ fuel ih =>
      rw [trimLoop]
      split_ifs with hlen
      · rw [ih l.dropLast (by rw [List.length_dropLast]; omega)]
        rw [List.dropLast_eq_take, List.take_take]
        congr 1
        omega
      · rw [List.take_of_length_le (by omega)]

/-- trimLog in closed form. -/
theorem trimLog_eq_take (l : List String) : trimLog l = l.take 10 :=
  trimLoop_eq_take l.length l (Nat.le_refl _)

/-- The eleven timestamps used for the concrete C9 scenario. -/
def elevenTimestamps : List String :=
  ["t01", "t02", "t03", "t04", "t05", "t06", "t07", "t08", "t09", "t10", "t11"]

/-- Eleven consecutive insertions into an empty log. -/
def elevenLog : List String :=
  elevenTimestamps.foldl (fun acc ts => addLogEntry acc ts "xs" "sm") []

/-- Log entries written with distinct timestamps of equal byte length
are distinct strings. -/
theorem mkLogEntry_ne_of_ts_ne (t1 t2 o n : String)
    (hlen : t1.data.length = t2.data.length) (hne : t1 ≠ t2) :
    mkLogEntry t1 o n ≠ mkLogEntry t2 o n := by
  intro he
  apply hne
  have hd := congrArg String.data he
  simp only [mkLogEntry, String.data_append, List.append_assoc] at hd
  exact String.ext (List.append_inj_left hd hlen)

/-- C9: the log is capped at 10 entries after every insertion, the new
entry always lands at the front, and after eleven insertions into an
empty log the first-inserted entry is gone while the most recent one is
at the front. -/
theorem c9_log_bounded (log : List String) (ts o n : String) :
    (addLogEntry log ts o n).length ≤ 10 ∧
    (addLogEntry log ts o n).head? = some (mkLogEntry ts o n) ∧
    elevenLog.length = 10 ∧
    mkLogEntry "t01" "xs" "sm" ∉ elevenLog ∧
    elevenLog.head? = some (mkLogEntry "t11" "xs" "sm") := by
  refine ⟨?_, ?_, rfl, ?_, rfl⟩
  · rw [addLogEntry, trimLog_eq_take]
    simp [List.length_take]
  · rw [addLogEntry, trimLog_eq_take]
    rfl
  · show mkLogEntry "t01" "xs" "sm" ∉
      [mkLogEntry "t11" "xs" "sm", mkLogEntry "t10" "xs" "sm", mkLogEntry "t09" "xs" "sm",
       mkLogEntry "t08" "xs" "sm", mkLogEntry "t07" "xs" "sm", mkLogEntry "t06" "xs" "sm",
       mkLogEntry "t05" "xs" "sm", mkLogEntry "t04" "xs" "sm", mkLogEntry "t03" "xs" "sm",
       mkLogEntry "t02" "xs" "sm"]
    simp only [List.mem_cons, List.not_mem_nil, or_false, not_or]
    refine ⟨?_, ?_, ?_, ?_, ?_, ?_, ?_, ?_, ?_, ?_⟩ <;>
      exact mkLogEntry_ne_of_ts_ne _ _ _ _ rfl (by decide)

end ResponsiveDemo
